import Mathlib

/-!
Formal model of s3fs-fuse `ThreadPoolMan` (src/threadpoolman.cpp).

The pool is embedded as a pure state machine:
- the counting semaphore `thpoolman_sem` is a natural-number count
  (`wait` decrements when positive and blocks at zero, `post` increments,
  `try_wait` decrements when positive and fails at zero);
- the instruction queue `instruction_list` is a list of task descriptors
  (`push_back` appends, `front`/`pop_front` read and drop the head);
- the worker set `thread_list` is a list of thread ids (naturals);
- caller-supplied completion semaphores are a map from semaphore id to count;
- the exit flag `is_exit` is a boolean.

Environment behaviour that the C++ code only observes (success of
`pthread_create`, of `pthread_join`, of `pthread_mutex_init`) is passed in
as boolean oracles; `abort()` and blocking are modelled with `Option`.
-/

/-- Task descriptor (`thpoolman_param`): a work function taking the opaque
argument and returning an optional error code (`none` models a null result
pointer, i.e. success), the argument, and an optional completion-semaphore
id (`none` models a null `psem`). -/
structure thpoolman_param where
  pfunc : Nat → Option Int
  args : Nat
  psem : Option Nat

/-- Mutable state of one `ThreadPoolMan` instance. -/
structure PoolState where
  is_exit : Bool
  thpoolman_sem : Nat
  instruction_list : List thpoolman_param
  thread_list : List Nat

/-- State of a freshly constructed instance before `StartThreads`:
`is_exit(false)`, `thpoolman_sem(0)`, empty lists. -/
def initState : PoolState :=
  { is_exit := false, thpoolman_sem := 0, instruction_list := [], thread_list := [] }

/-- One `thpoolman_sem.post()`. -/
def post (s : PoolState) : PoolState :=
  { s with thpoolman_sem := s.thpoolman_sem + 1 }

/-- The `for(waitcnt = thread_list.size(); 0 < waitcnt; --waitcnt){ post(); }`
loop of `StopThreads`: `n` successive posts. -/
def postN (s : PoolState) : Nat → PoolState
  | 0 => s
  | n + 1 => postN (post s) n

/-- The `while(thpoolman_sem.try_wait()){}` drain loop of `StopThreads`:
`try_wait` succeeds (and decrements) while the count is positive. -/
def drainSem : Nat → Nat
  | 0 => 0
  | n + 1 => drainSem n

/-- `ThreadPoolMan::SetExitFlag`. -/
def SetExitFlag (s : PoolState) (exit_flag : Bool) : PoolState :=
  { s with is_exit := exit_flag }

/-- `ThreadPoolMan::SetInstruction`: append the descriptor at the back of the
queue under the lock, then post the wakeup semaphore once. -/
def SetInstruction (s : PoolState) (param : thpoolman_param) : PoolState :=
  post { s with instruction_list := s.instruction_list ++ [param] }

/-- A sequence of `SetInstruction` calls, in list order. -/
def SetInstructionSeq (s : PoolState) : List thpoolman_param → PoolState
  | [] => s
  | p :: l => SetInstructionSeq (SetInstruction s p) l

/-- Post on the caller-owned completion semaphore with id `i`. -/
def semPost (cs : Nat → Nat) (i : Nat) : Nat → Nat :=
  fun j => if j = i then cs j + 1 else cs j

/-- Outcome of one iteration of the worker loop. -/
inductive WStep where
  | exited
  | spurious
  | ran (p : thpoolman_param)

/-- State after one worker-loop iteration: the step taken, the pool state,
the completion-semaphore counts, and the warning log (error codes logged by
`S3FS_PRN_WARN` for non-null task results). -/
structure WorkerOut where
  step : WStep
  pool : PoolState
  csems : Nat → Nat
  log : List Int

/-- Worker body from the point where `thpoolman_sem.wait()` has returned
(threadpoolman.cpp lines 83-107): re-check `IsExit` and break if set;
otherwise under the lock take the front instruction if any (else continue);
run `pfunc(args)` outside the lock, log a non-null result, and post the
task's completion semaphore if supplied. -/
def workerAwake (s : PoolState) (cs : Nat → Nat) (lg : List Int) : WorkerOut :=
  if s.is_exit then
    ⟨.exited, s, cs, lg⟩
  else
    match s.instruction_list with
    | [] => ⟨.spurious, s, cs, lg⟩
    | p :: rest =>
      let s1 := { s with instruction_list := rest }
      let lg1 := match p.pfunc p.args with
        | some e => lg ++ [e]
        | none => lg
      let cs1 := match p.psem with
        | some i => semPost cs i
        | none => cs
      ⟨.ran p, s1, cs1, lg1⟩

/-- One full worker-loop iteration from the top of
`while(!psingleton->IsExit())`: exit if the flag is set, otherwise block on
the semaphore (`none` when the count is zero), and on wake run
`workerAwake` on the decremented count. -/
def workerStep (s : PoolState) (cs : Nat → Nat) (lg : List Int) : Option WorkerOut :=
  if s.is_exit then
    some ⟨.exited, s, cs, lg⟩
  else
    match s.thpoolman_sem with
    | 0 => none
    | m + 1 => some (workerAwake { s with thpoolman_sem := m } cs lg)

/-- Result of running the worker loop for a number of iterations: the
descriptors executed, in execution order, and the final state. -/
structure RunOut where
  executed : List thpoolman_param
  pool : PoolState
  csems : Nat → Nat
  log : List Int

/-- Run up to `n` worker-loop iterations of a single worker, recording the
executed descriptors in order; stops early when the worker exits or blocks. -/
def workerRun : Nat → PoolState → (Nat → Nat) → List Int → RunOut
  | 0, s, cs, lg => ⟨[], s, cs, lg⟩
  | n + 1, s, cs, lg =>
    match workerStep s cs lg with
    | none => ⟨[], s, cs, lg⟩
    | some o =>
      match o.step with
      | .exited => ⟨[], o.pool, o.csems, o.log⟩
      | .spurious => workerRun n o.pool o.csems o.log
      | .ran p =>
        let r := workerRun n o.pool o.csems o.log
        ⟨p :: r.executed, r.pool, r.csems, r.log⟩

/-- Result of `StopThreads`: the returned boolean, the pool state, and the
ids of threads whose `pthread_join` failed (logged with `S3FS_PRN_ERR`,
control flow unaffected). -/
structure StopOut where
  ok : Bool
  pool : PoolState
  joinErrs : List Nat

/-- `ThreadPoolMan::StopThreads`, with `joinOk t` telling whether
`pthread_join` on thread `t` succeeds. Empty worker set: early return true.
Otherwise: set the exit flag, post once per tracked worker, join every
worker (failures only logged), clear the worker set, drain the semaphore. -/
def StopThreads (joinOk : Nat → Bool) (s : PoolState) : StopOut :=
  if s.thread_list.isEmpty then
    ⟨true, s, []⟩
  else
    let s1 := SetExitFlag s true
    let s2 := postN s1 s1.thread_list.length
    let errs := s2.thread_list.filter (fun t => !(joinOk t))
    let s3 := { s2 with thread_list := [] }
    let s4 := { s3 with thpoolman_sem := drainSem s3.thpoolman_sem }
    ⟨true, s4, errs⟩

/-- The `for(int cnt = 0; cnt < count; ++cnt)` spawn loop of `StartThreads`:
`spawnOk cnt` tells whether the `cnt`-th `pthread_create` succeeds; on
success the new thread id is pushed back, on failure `StopThreads` is called
and false is returned. `k` is the number of iterations left. -/
def spawnLoop (spawnOk joinOk : Nat → Bool) : Nat → Nat → PoolState → Bool × PoolState
  | _, 0, s => (true, s)
  | cnt, k + 1, s =>
    if spawnOk cnt then
      spawnLoop spawnOk joinOk (cnt + 1) k { s with thread_list := s.thread_list ++ [cnt] }
    else
      (false, (StopThreads joinOk s).pool)

/-- `ThreadPoolMan::StartThreads`: reject `count < 1`; stop any running
threads; clear the exit flag; spawn `count` workers. -/
def StartThreads (spawnOk joinOk : Nat → Bool) (s : PoolState) (count : Int) : Bool × PoolState :=
  if count < 1 then
    (false, s)
  else
    let r := StopThreads joinOk s
    if !r.ok then
      (false, r.pool)
    else
      spawnLoop spawnOk joinOk 0 count.toNat (SetExitFlag r.pool false)

/-- The `ThreadPoolMan` constructor: aborts (`none`) when `count < 1`, when a
singleton already exists, when `pthread_mutex_init` fails (`lockOk = false`),
or when `StartThreads` fails; otherwise yields the new instance state. -/
def mkThreadPoolMan (sing : Option PoolState) (lockOk : Bool)
    (spawnOk joinOk : Nat → Bool) (count : Int) : Option PoolState :=
  if count < 1 then
    none
  else if sing.isSome then
    none
  else if lockOk then
    match StartThreads spawnOk joinOk initState count with
    | (true, s) => some s
    | (false, _) => none
  else
    none

/-- `ThreadPoolMan::Destroy`: delete the singleton if it exists (the
destructor stops and joins all workers, then the instance is freed); the
global handle becomes null. No-op when no singleton exists. -/
def Destroy (ps : Option PoolState) : Option PoolState :=
  match ps with
  | none => none
  | some _ => none

/-- `ThreadPoolMan::Initialize`: if a singleton exists, destroy it first;
then construct a new instance with `count` workers. `none` models a process
abort inside the constructor. -/
def Initialize (lockOk : Bool) (spawnOk joinOk : Nat → Bool)
    (ps : Option PoolState) (count : Int) : Option (Bool × Option PoolState) :=
  let ps1 := if ps.isSome then Destroy ps else ps
  match mkThreadPoolMan ps1 lockOk spawnOk joinOk count with
  | some s => some (true, some s)
  | none => none

/-- `ThreadPoolMan::Instruct`: return false when no singleton exists,
otherwise delegate to `SetInstruction` and return true. -/
def Instruct (ps : Option PoolState) (param : thpoolman_param) : Bool × Option PoolState :=
  match ps with
  | none => (false, none)
  | some s => (true, some (SetInstruction s param))

/-! ## Basic lemmas about the embedded operations -/

theorem drainSem_eq_zero (n : Nat) : drainSem n = 0 := by
  induction n with
  | zero => rfl
  | succ n ih => exact ih

theorem postN_spec (t : PoolState) (n : Nat) :
    (postN t n).thpoolman_sem = t.thpoolman_sem + n ∧
    (postN t n).is_exit = t.is_exit ∧
    (postN t n).instruction_list = t.instruction_list ∧
    (postN t n).thread_list = t.thread_list := by
  induction n generalizing t with
  | zero => simp [postN]
  | succ n ih =>
    have h := ih (post t)
    simp only [postN, post] at h ⊢
    exact ⟨by omega, h.2⟩

theorem workerAwake_exit (s : PoolState) (cs : Nat → Nat) (lg : List Int)
    (h : s.is_exit = true) : workerAwake s cs lg = ⟨.exited, s, cs, lg⟩ := by
  simp [workerAwake, h]

theorem workerAwake_empty (s : PoolState) (cs : Nat → Nat) (lg : List Int)
    (h : s.is_exit = false) (hq : s.instruction_list = []) :
    workerAwake s cs lg = ⟨.spurious, s, cs, lg⟩ := by
  simp [workerAwake, h, hq]

theorem workerAwake_ran (s : PoolState) (cs : Nat → Nat) (lg : List Int)
    (p : thpoolman_param) (rest : List thpoolman_param)
    (h : s.is_exit = false) (hq : s.instruction_list = p :: rest) :
    workerAwake s cs lg =
      ⟨.ran p, { s with instruction_list := rest },
        (match p.psem with | some i => semPost cs i | none => cs),
        (match p.pfunc p.args with | some e => lg ++ [e] | none => lg)⟩ := by
  simp [workerAwake, h, hq]

/-! ## Worker-loop claims -/

/-- C2: a worker that wakes from the wakeup semaphore and observes the exit
flag set terminates immediately without dequeuing or executing any task,
even when tasks are pending; and a worker loop entered with the exit flag
observed never consumes a task. -/
theorem c2_exit_priority (s : PoolState) (cs : Nat → Nat) (lg : List Int) (n : Nat)
    (h : s.is_exit = true) :
    workerAwake s cs lg = ⟨.exited, s, cs, lg⟩ ∧
    workerRun n s cs lg = ⟨[], s, cs, lg⟩ := by
  refine ⟨workerAwake_exit s cs lg h, ?_⟩
  cases n with
  | zero => rfl
  | succ n => simp [workerRun, workerStep, h]

/-- Witness for `c2_exit_priority`: a pool with the exit flag set, a pending
task and a positive semaphore count; the woken worker exits leaving the
queue untouched. -/
theorem c2_exit_priority_witness :
    workerAwake ⟨true, 3, [⟨fun _ => none, 0, none⟩], [0]⟩ (fun _ => 0) [] =
      ⟨.exited, ⟨true, 3, [⟨fun _ => none, 0, none⟩], [0]⟩, (fun _ => 0), []⟩ ∧
    workerRun 5 ⟨true, 3, [⟨fun _ => none, 0, none⟩], [0]⟩ (fun _ => 0) [] =
      ⟨[], ⟨true, 3, [⟨fun _ => none, 0, none⟩], [0]⟩, (fun _ => 0), []⟩ :=
  c2_exit_priority ⟨true, 3, [⟨fun _ => none, 0, none⟩], [0]⟩ (fun _ => 0) [] 5 rfl

/-- C9: a worker that wakes with the exit flag clear and an empty queue
releases the lock and goes back to waiting, changing nothing; and the
front/pop branch is only reached when the queue is non-empty. -/
theorem c9_spurious_wake (s : PoolState) (cs : Nat → Nat) (lg : List Int) :
    (s.is_exit = false → s.instruction_list = [] →
      workerAwake s cs lg = ⟨.spurious, s, cs, lg⟩) ∧
    (∀ p : thpoolman_param, (workerAwake s cs lg).step = .ran p →
      s.instruction_list ≠ []) := by
  constructor
  · intro h hq
    exact workerAwake_empty s cs lg h hq
  · intro p hran hq
    by_cases h : s.is_exit
    · rw [workerAwake_exit s cs lg h] at hran
      exact WStep.noConfusion hran
    · rw [workerAwake_empty s cs lg (by simpa using h) hq] at hran
      exact WStep.noConfusion hran

/-- Witness for `c9_spurious_wake`: an awake worker with a clear exit flag
and an empty queue continues without popping. -/
theorem c9_spurious_wake_witness :
    workerAwake ⟨false, 2, [], [0]⟩ (fun _ => 0) [] =
      ⟨.spurious, ⟨false, 2, [], [0]⟩, (fun _ => 0), []⟩ :=
  (c9_spurious_wake ⟨false, 2, [], [0]⟩ (fun _ => 0) []).1 rfl rfl

/-- C5: for every dequeued task, the worker posts the task's completion
semaphore exactly once (when one is supplied) after the work function
returns, regardless of whether the result is null or non-null; a non-null
result is only appended to the warning log, the task is popped and never
re-enqueued, and the pool's exit flag and worker set are untouched. -/
theorem c5_completion_signal (s : PoolState) (cs : Nat → Nat) (lg : List Int)
    (p : thpoolman_param) (rest : List thpoolman_param)
    (hx : s.is_exit = false) (hq : s.instruction_list = p :: rest) :
    (workerAwake s cs lg).step = .ran p ∧
    (workerAwake s cs lg).pool.instruction_list = rest ∧
    (workerAwake s cs lg).pool.is_exit = false ∧
    (workerAwake s cs lg).pool.thread_list = s.thread_list ∧
    (∀ i, p.psem = some i →
      (workerAwake s cs lg).csems i = cs i + 1 ∧
      ∀ j, j ≠ i → (workerAwake s cs lg).csems j = cs j) ∧
    (p.psem = none → (workerAwake s cs lg).csems = cs) ∧
    (p.pfunc p.args = none → (workerAwake s cs lg).log = lg) ∧
    (∀ e, p.pfunc p.args = some e → (workerAwake s cs lg).log = lg ++ [e]) := by
  rw [workerAwake_ran s cs lg p rest hx hq]
  refine ⟨rfl, rfl, hx, rfl, ?_, ?_, ?_, ?_⟩
  · intro i hi
    simp only [hi, semPost]
    exact ⟨by simp, fun j hj => by simp [hj]⟩
  · intro hnone
    simp [hnone]
  · intro hnone
    simp [hnone]
  · intro e he
    simp [he]

/-- Witness for `c5_completion_signal`: a task returning error code 7 with
completion semaphore id 2; that semaphore goes from 0 to 1, other
semaphores stay at 0, and the error code is logged. -/
theorem c5_completion_signal_witness :
    (workerAwake ⟨false, 0, [⟨fun _ => some 7, 4, some 2⟩], []⟩ (fun _ => 0) []).csems 2 = 1 ∧
    (workerAwake ⟨false, 0, [⟨fun _ => some 7, 4, some 2⟩], []⟩ (fun _ => 0) []).csems 0 = 0 ∧
    (workerAwake ⟨false, 0, [⟨fun _ => some 7, 4, some 2⟩], []⟩ (fun _ => 0) []).log = [(7 : Int)] := by
  have h := c5_completion_signal ⟨false, 0, [⟨fun _ => some 7, 4, some 2⟩], []⟩
    (fun _ => 0) [] ⟨fun _ => some 7, 4, some 2⟩ [] rfl rfl
  refine ⟨(h.2.2.2.2.1 2 rfl).1, ?_, by simpa using h.2.2.2.2.2.2.2 7 rfl⟩
  simpa using (h.2.2.2.2.1 2 rfl).2 0 (by decide)

/-! ## FIFO dispatch -/

theorem SetInstructionSeq_spec (s : PoolState) (l : List thpoolman_param) :
    (SetInstructionSeq s l).instruction_list = s.instruction_list ++ l ∧
    (SetInstructionSeq s l).thpoolman_sem = s.thpoolman_sem + l.length ∧
    (SetInstructionSeq s l).is_exit = s.is_exit ∧
    (SetInstructionSeq s l).thread_list = s.thread_list := by
  induction l generalizing s with
  | nil => simp [SetInstructionSeq]
  | cons p l ih =>
    have h := ih (SetInstruction s p)
    simp only [SetInstructionSeq, SetInstruction, post, List.length_cons] at h ⊢
    refine ⟨?_, by omega, h.2.2⟩
    rw [h.1]
    simp

theorem workerRun_take (n : Nat) :
    ∀ (s : PoolState) (cs : Nat → Nat) (lg : List Int),
    s.is_exit = false → n ≤ s.instruction_list.length → n ≤ s.thpoolman_sem →
    (workerRun n s cs lg).executed = s.instruction_list.take n := by
  induction n with
  | zero =>
    intro s cs lg _ _ _
    simp [workerRun]
  | succ n ih =>
    intro s cs lg hx hql hsem
    obtain ⟨x, sem, ql, tl⟩ := s
    dsimp only at hx hql hsem
    subst hx
    obtain ⟨m, rfl⟩ : ∃ m, sem = m + 1 := ⟨sem - 1, by omega⟩
    obtain ⟨p, rest, rfl⟩ : ∃ p rest, ql = p :: rest := by
      cases hqq : ql with
      | nil => subst hqq; simp at hql
      | cons a b => exact ⟨a, b, rfl⟩
    have h1 : n ≤ rest.length := by simpa using hql
    have h2 : n ≤ m := by omega
    have hrun := ih ⟨false, m, rest, tl⟩
      (match p.psem with | some i => semPost cs i | none => cs)
      (match p.pfunc p.args with | some e => lg ++ [e] | none => lg)
      rfl h1 h2
    simp only [workerRun, workerStep, workerAwake]
    simp [hrun]

/-- C1: `SetInstruction` appends each descriptor at the back of the queue
and a worker always removes the front descriptor, so a worker dequeues
tasks in submission (FIFO) order: after any sequence of `SetInstruction`
calls, `n` worker iterations execute the first `n` queued descriptors in
exactly the order of the queue contents followed by the submission order. -/
theorem c1_fifo_order (s : PoolState) (l : List thpoolman_param) (cs : Nat → Nat)
    (lg : List Int) (n : Nat) (p : thpoolman_param)
    (hx : s.is_exit = false)
    (hn : n ≤ s.instruction_list.length + l.length)
    (hsem : n ≤ s.thpoolman_sem + l.length) :
    (SetInstruction s p).instruction_list = s.instruction_list ++ [p] ∧
    (workerRun n (SetInstructionSeq s l) cs lg).executed =
      (s.instruction_list ++ l).take n := by
  have hseq := SetInstructionSeq_spec s l
  refine ⟨by simp [SetInstruction, post], ?_⟩
  have h := workerRun_take n (SetInstructionSeq s l) cs lg
    (by rw [hseq.2.2.1, hx])
    (by rw [hseq.1]; simpa using hn)
    (by rw [hseq.2.1]; exact hsem)
  rw [h, hseq.1]

/-- Witness for `c1_fifo_order`: two tasks submitted to a fresh pool state
are executed in submission order. -/
theorem c1_fifo_order_witness :
    (workerRun 2 (SetInstructionSeq initState
        [⟨fun _ => none, 1, none⟩, ⟨fun _ => none, 2, none⟩]) (fun _ => 0) []).executed =
      [⟨fun _ => none, 1, none⟩, ⟨fun _ => none, 2, none⟩] :=
  (c1_fifo_order initState [⟨fun _ => none, 1, none⟩, ⟨fun _ => none, 2, none⟩]
    (fun _ => 0) [] 2 ⟨fun _ => none, 1, none⟩ rfl (by decide) (by decide)).2

/-! ## Stop and start lifecycle -/

theorem StopThreads_pool_spec (joinOk : Nat → Bool) (s : PoolState) :
    (StopThreads joinOk s).ok = true ∧
    (StopThreads joinOk s).pool.thread_list = [] ∧
    (StopThreads joinOk s).pool.instruction_list = s.instruction_list := by
  cases htl : s.thread_list with
  | nil => simp [StopThreads, htl]
  | cons t ts =>
    have hne : s.thread_list.isEmpty = false := by rw [htl]; rfl
    have hp := postN_spec (SetExitFlag s true) (SetExitFlag s true).thread_list.length
    simp only [SetExitFlag] at hp
    simp only [StopThreads, hne, Bool.false_eq_true, if_false, SetExitFlag]
    refine ⟨by simp, by simp, by simp [hp.2.2.1]⟩

/-- C10: `StopThreads` returns true in every state: on the empty-worker-set
path and after stopping workers, for every join-success oracle, including
oracles under which every join fails; when workers were tracked they are
still cleared. -/
theorem c10_stop_returns_true (joinOk : Nat → Bool) (s : PoolState) :
    (StopThreads joinOk s).ok = true ∧
    (s.thread_list ≠ [] → (StopThreads joinOk s).pool.thread_list = []) :=
  ⟨(StopThreads_pool_spec joinOk s).1, fun _ => (StopThreads_pool_spec joinOk s).2.1⟩

/-- Witness for `c10_stop_returns_true`: a pool with one tracked worker and
an oracle under which every `pthread_join` fails; `StopThreads` still
returns true and clears the worker set. -/
theorem c10_stop_returns_true_witness :
    (StopThreads (fun _ => false) ⟨false, 0, [], [3]⟩).ok = true ∧
    (StopThreads (fun _ => false) ⟨false, 0, [], [3]⟩).pool.thread_list = [] :=
  ⟨(c10_stop_returns_true (fun _ => false) ⟨false, 0, [], [3]⟩).1,
   (c10_stop_returns_true (fun _ => false) ⟨false, 0, [], [3]⟩).2 (by decide)⟩

/-- C3: `StopThreads` is a no-op returning true when no workers are tracked;
otherwise it sets the exit flag, posts the wakeup semaphore exactly once per
tracked worker (`postN` adds exactly the worker count), joins every worker,
clears the worker set, and drains the semaphore back to zero. -/
theorem c3_stop_threads (joinOk : Nat → Bool) (s : PoolState) :
    (s.thread_list = [] → StopThreads joinOk s = ⟨true, s, []⟩) ∧
    (s.thread_list ≠ [] →
      (StopThreads joinOk s).ok = true ∧
      (StopThreads joinOk s).pool.is_exit = true ∧
      (StopThreads joinOk s).pool.thread_list = [] ∧
      (StopThreads joinOk s).pool.thpoolman_sem = 0 ∧
      (StopThreads joinOk s).pool.instruction_list = s.instruction_list) ∧
    (∀ (t : PoolState) (n : Nat), (postN t n).thpoolman_sem = t.thpoolman_sem + n) := by
  refine ⟨?_, ?_, fun t n => (postN_spec t n).1⟩
  · intro h
    simp [StopThreads, h]
  · intro h
    have hne : s.thread_list.isEmpty = false := by
      cases htl : s.thread_list with
      | nil => exact absurd htl h
      | cons t ts => rfl
    refine ⟨(StopThreads_pool_spec joinOk s).1, ?_,
      (StopThreads_pool_spec joinOk s).2.1, ?_, (StopThreads_pool_spec joinOk s).2.2⟩
    · have hp := postN_spec (SetExitFlag s true) (SetExitFlag s true).thread_list.length
      simp only [SetExitFlag] at hp
      simp only [StopThreads, hne, Bool.false_eq_true, if_false, SetExitFlag]
      simp [hp.2.1]
    · simp only [StopThreads, hne, Bool.false_eq_true, if_false]
      simp [drainSem_eq_zero]

/-- Witness for `c3_stop_threads`: both branches at concrete states — the
empty-worker no-op, and a two-worker stop ending with a drained semaphore. -/
theorem c3_stop_threads_witness :
    StopThreads (fun _ => true) ⟨false, 4, [], []⟩ = ⟨true, ⟨false, 4, [], []⟩, []⟩ ∧
    (StopThreads (fun _ => true) ⟨false, 4, [], [1, 2]⟩).pool.is_exit = true ∧
    (StopThreads (fun _ => true) ⟨false, 4, [], [1, 2]⟩).pool.thpoolman_sem = 0 ∧
    (StopThreads (fun _ => true) ⟨false, 4, [], [1, 2]⟩).pool.thread_list = [] :=
  ⟨(c3_stop_threads (fun _ => true) ⟨false, 4, [], []⟩).1 rfl,
   ((c3_stop_threads (fun _ => true) ⟨false, 4, [], [1, 2]⟩).2.1 (by decide)).2.1,
   ((c3_stop_threads (fun _ => true) ⟨false, 4, [], [1, 2]⟩).2.1 (by decide)).2.2.2.1,
   ((c3_stop_threads (fun _ => true) ⟨false, 4, [], [1, 2]⟩).2.1 (by decide)).2.2.1⟩

theorem spawnLoop_success (spawnOk joinOk : Nat → Bool) (k : Nat) :
    ∀ (cnt : Nat) (s s' : PoolState),
    spawnLoop spawnOk joinOk cnt k s = (true, s') →
    s'.thread_list = s.thread_list ++ List.range' cnt k ∧
    s'.is_exit = s.is_exit ∧
    s'.instruction_list = s.instruction_list ∧
    s'.thpoolman_sem = s.thpoolman_sem := by
  induction k with
  | zero =>
    intro cnt s s' h
    simp only [spawnLoop, Prod.mk.injEq] at h
    simp [← h.2, List.range']
  | succ k ih =>
    intro cnt s s' h
    simp only [spawnLoop] at h
    by_cases hs : spawnOk cnt
    · rw [if_pos hs] at h
      have := ih (cnt + 1) { s with thread_list := s.thread_list ++ [cnt] } s' h
      simpa [List.range'_succ] using this
    · rw [if_neg hs] at h
      simp at h

theorem spawnLoop_failure (spawnOk joinOk : Nat → Bool) (k : Nat) :
    ∀ (cnt : Nat) (s s' : PoolState),
    spawnLoop spawnOk joinOk cnt k s = (false, s') →
    s'.thread_list = [] := by
  induction k with
  | zero =>
    intro cnt s s' h
    simp [spawnLoop] at h
  | succ k ih =>
    intro cnt s s' h
    simp only [spawnLoop] at h
    by_cases hs : spawnOk cnt
    · rw [if_pos hs] at h
      exact ih (cnt + 1) { s with thread_list := s.thread_list ++ [cnt] } s' h
    · rw [if_neg hs] at h
      simp only [Prod.mk.injEq] at h
      rw [← h.2]
      exact (StopThreads_pool_spec joinOk s).2.1

theorem spawnLoop_all_ok (spawnOk joinOk : Nat → Bool) (k : Nat)
    (hall : ∀ i, spawnOk i = true) :
    ∀ (cnt : Nat) (s : PoolState), (spawnLoop spawnOk joinOk cnt k s).1 = true := by
  induction k with
  | zero =>
    intro cnt s
    rfl
  | succ k ih =>
    intro cnt s
    simp only [spawnLoop, hall cnt, if_true]
    exact ih (cnt + 1) _

/-- C6 counterexample: `StartThreads` does not always call `StopThreads`
first. With `count = 0` it returns false immediately, leaving a tracked
worker and a set exit flag untouched; and with an empty worker set the
initial `StopThreads` is a no-op that does not zero the wakeup count, so a
spawn can start with a non-zero semaphore (here 3). -/
theorem c6_start_threads_counterexample :
    StartThreads (fun _ => true) (fun _ => true) ⟨true, 0, [], [5]⟩ 0 =
      (false, ⟨true, 0, [], [5]⟩) ∧
    (StartThreads (fun _ => true) (fun _ => true) ⟨false, 3, [], []⟩ 1).1 = true ∧
    (StartThreads (fun _ => true) (fun _ => true) ⟨false, 3, [], []⟩ 1).2.thpoolman_sem = 3 := by
  refine ⟨rfl, rfl, rfl⟩

theorem StartThreads_spec (spawnOk joinOk : Nat → Bool) (s : PoolState) (count : Int) :
    (count < 1 → StartThreads spawnOk joinOk s count = (false, s)) ∧
    (1 ≤ count →
      ((StartThreads spawnOk joinOk s count).1 = true →
        (StartThreads spawnOk joinOk s count).2.thread_list = List.range count.toNat ∧
        (StartThreads spawnOk joinOk s count).2.is_exit = false ∧
        (StartThreads spawnOk joinOk s count).2.instruction_list = s.instruction_list) ∧
      ((StartThreads spawnOk joinOk s count).1 = false →
        (StartThreads spawnOk joinOk s count).2.thread_list = [])) := by
  constructor
  · intro h
    simp [StartThreads, h]
  · intro hge
    have hok := StopThreads_pool_spec joinOk s
    have hlt : ¬ count < 1 := by omega
    have hred : StartThreads spawnOk joinOk s count =
        spawnLoop spawnOk joinOk 0 count.toNat (SetExitFlag (StopThreads joinOk s).pool false) := by
      simp [StartThreads, hlt, hok.1]
    rcases hsp : spawnLoop spawnOk joinOk 0 count.toNat
        (SetExitFlag (StopThreads joinOk s).pool false) with ⟨b, s'⟩
    rw [hred, hsp]
    constructor
    · intro hb
      simp only at hb
      subst hb
      have hsucc := spawnLoop_success spawnOk joinOk count.toNat 0 _ s' hsp
      refine ⟨?_, ?_, ?_⟩
      · rw [hsucc.1]
        simp [SetExitFlag, hok.2.1, List.range_eq_range']
      · rw [hsucc.2.1]
        simp [SetExitFlag]
      · rw [hsucc.2.2.1]
        simp [SetExitFlag, hok.2.2]
    · intro hb
      simp only at hb
      subst hb
      exact spawnLoop_failure spawnOk joinOk count.toNat 0 _ s' hsp

/-- C6 amended: for `count < 1` `StartThreads` returns false leaving the
state untouched. For `count ≥ 1` it stops any tracked workers, clears the
exit flag, then spawns `count` workers: on success the pool tracks exactly
the `count` fresh workers with a clear exit flag and an unchanged task
queue; on a mid-sequence spawn failure it stops the workers already started
and returns false with no workers left tracked. -/
theorem c6_start_threads_amended (spawnOk joinOk : Nat → Bool) (s : PoolState) (count : Int) :
    (count < 1 → StartThreads spawnOk joinOk s count = (false, s)) ∧
    (1 ≤ count →
      ((StartThreads spawnOk joinOk s count).1 = true →
        (StartThreads spawnOk joinOk s count).2.thread_list = List.range count.toNat ∧
        (StartThreads spawnOk joinOk s count).2.is_exit = false ∧
        (StartThreads spawnOk joinOk s count).2.instruction_list = s.instruction_list) ∧
      ((StartThreads spawnOk joinOk s count).1 = false →
        (StartThreads spawnOk joinOk s count).2.thread_list = [])) :=
  StartThreads_spec spawnOk joinOk s count

/-- Witness for `c6_start_threads_amended`: starting 2 workers over a pool
tracking worker 9 succeeds and tracks exactly workers 0 and 1; when the
second spawn fails, no workers are left tracked. -/
theorem c6_start_threads_amended_witness :
    (StartThreads (fun _ => true) (fun _ => true) ⟨false, 0, [], [9]⟩ 2).2.thread_list =
      List.range 2 ∧
    (StartThreads (fun i => i == 0) (fun _ => true) ⟨false, 0, [], [9]⟩ 2).2.thread_list = [] :=
  ⟨(((c6_start_threads_amended (fun _ => true) (fun _ => true) ⟨false, 0, [], [9]⟩ 2).2
      (by decide)).1 (by decide)).1,
   ((c6_start_threads_amended (fun i => i == 0) (fun _ => true) ⟨false, 0, [], [9]⟩ 2).2
      (by decide)).2 (by decide)⟩

/-! ## Singleton facade -/

theorem mkThreadPoolMan_fresh (sing : Option PoolState) (lockOk : Bool)
    (spawnOk joinOk : Nat → Bool) (count : Int) (s : PoolState)
    (h : mkThreadPoolMan sing lockOk spawnOk joinOk count = some s) :
    s.instruction_list = [] := by
  by_cases hc : count < 1
  · simp [mkThreadPoolMan, hc] at h
  · by_cases hs : sing.isSome
    · simp [mkThreadPoolMan, hc, hs] at h
    · by_cases hl : lockOk
      · simp only [mkThreadPoolMan, hc, hs, hl, if_false, if_true, Bool.false_eq_true] at h
        rcases hst : StartThreads spawnOk joinOk initState count with ⟨b, s'⟩
        rw [hst] at h
        cases b with
        | false => exact absurd h (by simp)
        | true =>
          simp only [Option.some.injEq] at h
          subst h
          have h2 := ((StartThreads_spec spawnOk joinOk initState count).2
            (by omega)).1
          rw [hst] at h2
          exact (h2 rfl).2.2
      · simp [mkThreadPoolMan, hc, hs, hl] at h

/-- C4: `Instruct` returns false without enqueuing when no singleton exists,
including after `Destroy`; otherwise it appends the descriptor at the back
of the queue, posts the wakeup semaphore exactly once, and returns true. -/
theorem c4_instruct (ps : Option PoolState) (p : thpoolman_param) :
    (ps = none → Instruct ps p = (false, none)) ∧
    (Instruct (Destroy ps) p = (false, none)) ∧
    (∀ s, ps = some s →
      Instruct ps p = (true, some (SetInstruction s p)) ∧
      (SetInstruction s p).instruction_list = s.instruction_list ++ [p] ∧
      (SetInstruction s p).thpoolman_sem = s.thpoolman_sem + 1) := by
  refine ⟨?_, ?_, ?_⟩
  · intro h
    subst h
    rfl
  · cases ps <;> rfl
  · intro s h
    subst h
    exact ⟨rfl, by simp [SetInstruction, post], by simp [SetInstruction, post]⟩

/-- Witness for `c4_instruct`: `Instruct` on a missing singleton returns
false; on an existing singleton it enqueues and returns true. -/
theorem c4_instruct_witness :
    Instruct none ⟨fun _ => none, 0, none⟩ = (false, none) ∧
    Instruct (some initState) ⟨fun _ => none, 0, none⟩ =
      (true, some (SetInstruction initState ⟨fun _ => none, 0, none⟩)) :=
  ⟨(c4_instruct none ⟨fun _ => none, 0, none⟩).1 rfl,
   ((c4_instruct (some initState) ⟨fun _ => none, 0, none⟩).2.2 initState rfl).1⟩

/-- C7: `Initialize` on an existing singleton destroys it first, so it is
equivalent to `Destroy` followed by `Initialize`; the new instance starts
with an empty task queue, so no first-generation worker observes tasks
submitted after the second `Initialize`. -/
theorem c7_initialize_equiv (lockOk : Bool) (spawnOk joinOk : Nat → Bool)
    (ps : Option PoolState) (count : Int) :
    Initialize lockOk spawnOk joinOk ps count =
      Initialize lockOk spawnOk joinOk (Destroy ps) count ∧
    (∀ b s, Initialize lockOk spawnOk joinOk ps count = some (b, some s) →
      s.instruction_list = []) := by
  constructor
  · cases ps <;> rfl
  · intro b s h
    simp only [Initialize] at h
    rcases hmk : mkThreadPoolMan (if ps.isSome then Destroy ps else ps)
        lockOk spawnOk joinOk count with _ | s'
    · rw [hmk] at h
      exact absurd h (by simp)
    · rw [hmk] at h
      simp only [Option.some.injEq, Prod.mk.injEq] at h
      have hss : s' = s := by simpa using h.2
      subst hss
      exact mkThreadPoolMan_fresh _ lockOk spawnOk joinOk count s' hmk

/-- Witness for `c7_initialize_equiv`: the pool created by
`Initialize 1` over a missing singleton has an empty task queue. -/
theorem c7_initialize_equiv_witness :
    (⟨false, 0, [], [0]⟩ : PoolState).instruction_list = [] :=
  (c7_initialize_equiv true (fun _ => true) (fun _ => true) none 1).2
    true ⟨false, 0, [], [0]⟩ rfl

/-- C8: `Initialize` aborts the process (modelled as `none`) for every
`count < 1`; it never returns false (a construction failure — mutex
initialization or `StartThreads` — is also an abort); and when nothing
fails it returns true with a new instance. -/
theorem c8_initialize_aborts (lockOk : Bool) (spawnOk joinOk : Nat → Bool)
    (ps : Option PoolState) (count : Int) :
    (count < 1 → Initialize lockOk spawnOk joinOk ps count = none) ∧
    (∀ b r, Initialize lockOk spawnOk joinOk ps count = some (b, r) → b = true) ∧
    (1 ≤ count → lockOk = true → (∀ i, spawnOk i = true) →
      ∃ s, Initialize lockOk spawnOk joinOk ps count = some (true, some s)) := by
  refine ⟨?_, ?_, ?_⟩
  · intro h
    simp [Initialize, mkThreadPoolMan, h]
  · intro b r h
    simp only [Initialize] at h
    rcases hmk : mkThreadPoolMan (if ps.isSome then Destroy ps else ps)
        lockOk spawnOk joinOk count with _ | s'
    · rw [hmk] at h
      exact absurd h (by simp)
    · rw [hmk] at h
      simp only [Option.some.injEq, Prod.mk.injEq] at h
      exact h.1.symm
  · intro hge hl hall
    subst hl
    have hsing : (if ps.isSome then Destroy ps else ps) = none := by
      cases ps <;> simp [Destroy]
    have hok := StopThreads_pool_spec joinOk initState
    have hstart : (StartThreads spawnOk joinOk initState count).1 = true := by
      simp only [StartThreads, if_neg (show ¬ count < 1 by omega), hok.1, Bool.not_true,
        Bool.false_eq_true, if_false]
      exact spawnLoop_all_ok spawnOk joinOk count.toNat hall 0 _
    rcases hst : StartThreads spawnOk joinOk initState count with ⟨b, s'⟩
    rw [hst] at hstart
    simp only at hstart
    subst hstart
    refine ⟨s', ?_⟩
    simp only [Initialize, hsing, mkThreadPoolMan, if_neg (show ¬ count < 1 by omega)]
    simp [hst]

/-- Witness for `c8_initialize_aborts`: `Initialize 0` aborts. -/
theorem c8_initialize_aborts_witness :
    Initialize true (fun _ => true) (fun _ => true) none 0 = none :=
  (c8_initialize_aborts true (fun _ => true) (fun _ => true) none 0).1 (by decide)
